import Mathlib

/-!
Shallow embedding of cocli's "corim sign" command (src/cmd/corimSign.go).

The command combines an unsigned CoRIM manifest, a CoRIM Meta record and a
signing key into a signed COSE Sign1 envelope, optionally embedding a signing
certificate and a chain of intermediate certificates.

External collaborators (the afero filesystem, the veraison/corim library and
the go-cose Signer) are modelled as an environment of opaque operations, each
returning an Except value that mirrors the Go (value, error) pair.  Every
effectful call made by sign is also recorded in an event trace, so temporal
claims (ordering, frame conditions, "file never read") can be stated about
the trace.
-/

namespace Cocli

/-- Byte strings ([]byte in Go) are modelled as lists of naturals. -/
abbrev Bytes := List Nat

/-- Which input role a file read serves in the sign function; the trace
records it together with the path so that claims can speak about, e.g.,
"the intermediates file was never read". -/
inductive Stage where
  | manifest
  | meta
  | key
  | cert
  | intermediates
deriving DecidableEq, Repr

/-- One observable effect or collaborator call performed by sign, in program
order.  readFile corresponds to afero.ReadFile, writeFile to afero.WriteFile;
the others are the veraison/corim collaborator calls made by sign. -/
inductive Event where
  | readFile (stage : Stage) (path : String)
  | decodeCBOR
  | validCorim
  | decodeJSON
  | validMeta
  | newSigner
  | mkAssembler
  | addSigningCert
  | addIntermediateCerts
  | signCall
  | writeFile (path : String) (content : Bytes)
deriving DecidableEq, Repr

/-- The external collaborators of corimSign.go, over opaque types
U (corim.UnsignedCorim), M (corim.Meta), Sg (cose.Signer) and
C (corim.SignedCorim).  Each field is one operation the Go code calls:
readFile is afero.ReadFile on the package filesystem fs; fromCBOR is
UnsignedCorim.FromCBOR; corimValid is UnsignedCorim.Valid; fromJSON is
Meta.FromJSON; metaValid is Meta.Valid; newSignerFromJWK is
corim.NewSignerFromJWK; mkSignedCorim is the struct literal
corim.SignedCorim{UnsignedCorim: c, Meta: m}; addSigningCert is
SignedCorim.AddSigningCert; addIntermediateCerts is
SignedCorim.AddIntermediateCerts; signCorim is SignedCorim.Sign; writeFile
is afero.WriteFile. -/
structure Env (U M Sg C : Type) where
  readFile : String → Except String Bytes
  fromCBOR : Bytes → Except String U
  corimValid : U → Except String Unit
  fromJSON : Bytes → Except String M
  metaValid : M → Except String Unit
  newSignerFromJWK : Bytes → Except String Sg
  mkSignedCorim : U → M → C
  addSigningCert : C → Bytes → Except String C
  addIntermediateCerts : C → Bytes → Except String C
  signCorim : C → Sg → Except String Bytes
  writeFile : String → Bytes → Except String Unit

/-- A Go *string flag value: nil (none) or a pointer to a string.  The Go
code treats nil and a pointer to the empty string alike, via the test
ptr != nil && *ptr != "" -/
def optPresent : Option String → Bool
  | none => false
  | some s => !(s == "")

/-- Output path resolution at the end of sign (corimSign.go lines 179-184):
if outputFile == nil or *outputFile == "" the result is "signed-" prepended
to the unsigned CoRIM file name, otherwise *outputFile. -/
def resolvedOutputPath (unsignedCorimFile : String) (outputFile : Option String) : String :=
  match outputFile with
  | none => "signed-" ++ unsignedCorimFile
  | some o => if o = "" then "signed-" ++ unsignedCorimFile else o

/-- Final part of sign (corimSign.go lines 174-190): s.Sign(signer), output
path resolution, and afero.WriteFile of the signed CoRIM.  t is the trace
accumulated so far; s is the assembled SignedCorim, signer the cose.Signer. -/
def signFinish {U M Sg C : Type} (env : Env U M Sg C) (s : C) (signer : Sg)
    (unsignedCorimFile : String) (outputFile : Option String) (t : List Event) :
    Except String String × List Event :=
  match env.signCorim s signer with
  | .error e => (.error ("error signing CoRIM: " ++ e), t ++ [.signCall])
  | .ok signedCorimCBOR =>
    match env.writeFile (resolvedOutputPath unsignedCorimFile outputFile) signedCorimCBOR with
    | .error e =>
        (.error ("error saving signed CoRIM to file "
            ++ resolvedOutputPath unsignedCorimFile outputFile ++ ": " ++ e),
         t ++ [.signCall, .writeFile (resolvedOutputPath unsignedCorimFile outputFile)
                  signedCorimCBOR])
    | .ok _ =>
        (.ok (resolvedOutputPath unsignedCorimFile outputFile),
         t ++ [.signCall, .writeFile (resolvedOutputPath unsignedCorimFile outputFile)
                  signedCorimCBOR])

/-- Intermediate-certificate block of sign (corimSign.go lines 158-173):
if intermediatesFile != nil and *intermediatesFile != "", first require that
certFile is set, then read the intermediates file and call
s.AddIntermediateCerts; afterwards fall through to signFinish. -/
def signAttachIntermediates {U M Sg C : Type} (env : Env U M Sg C) (s : C) (signer : Sg)
    (unsignedCorimFile : String) (outputFile certFile intermediatesFile : Option String)
    (t : List Event) : Except String String × List Event :=
  match intermediatesFile with
  | none => signFinish env s signer unsignedCorimFile outputFile t
  | some inf =>
    if inf = "" then signFinish env s signer unsignedCorimFile outputFile t
    else if optPresent certFile = false then
      (.error "cannot add intermediate certificates without a signing certificate", t)
    else
      match env.readFile inf with
      | .error e =>
          (.error ("error loading intermediate certificates from " ++ inf ++ ": " ++ e),
           t ++ [.readFile .intermediates inf])
      | .ok intermediatesDER =>
        match env.addIntermediateCerts s intermediatesDER with
        | .error e =>
            (.error ("error adding intermediate certificates: " ++ e),
             t ++ [.readFile .intermediates inf, .addIntermediateCerts])
        | .ok s2 =>
            signFinish env s2 signer unsignedCorimFile outputFile
              (t ++ [.readFile .intermediates inf, .addIntermediateCerts])

/-- Signing-certificate block of sign (corimSign.go lines 147-157): if
certFile != nil and *certFile != "", read the certificate file and call
s.AddSigningCert; afterwards fall through to the intermediates block. -/
def signAttachCerts {U M Sg C : Type} (env : Env U M Sg C) (s : C) (signer : Sg)
    (unsignedCorimFile : String) (outputFile certFile intermediatesFile : Option String)
    (t : List Event) : Except String String × List Event :=
  match certFile with
  | none =>
      signAttachIntermediates env s signer unsignedCorimFile outputFile
        certFile intermediatesFile t
  | some cf =>
    if cf = "" then
      signAttachIntermediates env s signer unsignedCorimFile outputFile
        certFile intermediatesFile t
    else
      match env.readFile cf with
      | .error e =>
          (.error ("error loading signing certificate from " ++ cf ++ ": " ++ e),
           t ++ [.readFile .cert cf])
      | .ok certDER =>
        match env.addSigningCert s certDER with
        | .error e =>
            (.error ("error adding signing certificate: " ++ e),
             t ++ [.readFile .cert cf, .addSigningCert])
        | .ok s2 =>
            signAttachIntermediates env s2 signer unsignedCorimFile outputFile
              certFile intermediatesFile
              (t ++ [.readFile .cert cf, .addSigningCert])

/-- The sign function of corimSign.go (lines 95-191).  Returns the Go pair
(string, error) as an Except, together with the trace of effects performed.
The error messages are the exact fmt.Errorf format strings of the source with
the wrapped error appended. -/
def sign {U M Sg C : Type} (env : Env U M Sg C)
    (unsignedCorimFile keyFile metaFile : String)
    (outputFile certFile intermediatesFile : Option String) :
    Except String String × List Event :=
  match env.readFile unsignedCorimFile with
  | .error e =>
      (.error ("error loading unsigned CoRIM from " ++ unsignedCorimFile ++ ": " ++ e),
       [.readFile .manifest unsignedCorimFile])
  | .ok unsignedCorimCBOR =>
  match env.fromCBOR unsignedCorimCBOR with
  | .error e =>
      (.error ("error decoding unsigned CoRIM from " ++ unsignedCorimFile ++ ": " ++ e),
       [.readFile .manifest unsignedCorimFile, .decodeCBOR])
  | .ok c =>
  match env.corimValid c with
  | .error e =>
      (.error ("error validating CoRIM: " ++ e),
       [.readFile .manifest unsignedCorimFile, .decodeCBOR, .validCorim])
  | .ok _ =>
  match env.readFile metaFile with
  | .error e =>
      (.error ("error loading CoRIM Meta from " ++ metaFile ++ ": " ++ e),
       [.readFile .manifest unsignedCorimFile, .decodeCBOR, .validCorim,
        .readFile .meta metaFile])
  | .ok metaJSON =>
  match env.fromJSON metaJSON with
  | .error e =>
      (.error ("error decoding CoRIM Meta from " ++ metaFile ++ ": " ++ e),
       [.readFile .manifest unsignedCorimFile, .decodeCBOR, .validCorim,
        .readFile .meta metaFile, .decodeJSON])
  | .ok m =>
  match env.metaValid m with
  | .error e =>
      (.error ("error validating CoRIM Meta: " ++ e),
       [.readFile .manifest unsignedCorimFile, .decodeCBOR, .validCorim,
        .readFile .meta metaFile, .decodeJSON, .validMeta])
  | .ok _ =>
  match env.readFile keyFile with
  | .error e =>
      (.error ("error loading signing key from " ++ keyFile ++ ": " ++ e),
       [.readFile .manifest unsignedCorimFile, .decodeCBOR, .validCorim,
        .readFile .meta metaFile, .decodeJSON, .validMeta, .readFile .key keyFile])
  | .ok keyJWK =>
  match env.newSignerFromJWK keyJWK with
  | .error e =>
      (.error ("error loading signing key from " ++ keyFile ++ ": " ++ e),
       [.readFile .manifest unsignedCorimFile, .decodeCBOR, .validCorim,
        .readFile .meta metaFile, .decodeJSON, .validMeta, .readFile .key keyFile,
        .newSigner])
  | .ok signer =>
    signAttachCerts env (env.mkSignedCorim c m) signer unsignedCorimFile outputFile
      certFile intermediatesFile
      [.readFile .manifest unsignedCorimFile, .decodeCBOR, .validCorim,
       .readFile .meta metaFile, .decodeJSON, .validMeta, .readFile .key keyFile,
       .newSigner, .mkAssembler]

/-- Argument check of the sign command (corimSign.go lines 79-93): the
CoRIM file, key file and Meta file flags are mandatory, checked in that
order; nil and empty string are both rejected. -/
def checkCorimSignArgs (corimFile keyFile metaFile : Option String) : Except String Unit :=
  if optPresent corimFile = false then .error "no CoRIM supplied"
  else if optPresent keyFile = false then .error "no key supplied"
  else if optPresent metaFile = false then .error "no CoRIM Meta supplied"
  else .ok ()

/-- The RunE closure of NewCorimSignCmd (corimSign.go lines 52-67):
checkCorimSignArgs first, and only on success is sign invoked with the
dereferenced flag values.  An empty trace is returned when the check fails:
no file has been touched. -/
def runE {U M Sg C : Type} (env : Env U M Sg C)
    (corimFile keyFile metaFile outputFile certFile intermediatesFile : Option String) :
    Except String String × List Event :=
  match checkCorimSignArgs corimFile keyFile metaFile with
  | .error e => (.error e, [])
  | .ok _ =>
      sign env (corimFile.getD "") (keyFile.getD "") (metaFile.getD "")
        outputFile certFile intermediatesFile

/-- An error message mentions a path when the path occurs verbatim inside
the message. -/
def mentionsPath (path msg : String) : Prop := path.data <:+: msg.data

instance (path msg : String) : Decidable (mentionsPath path msg) :=
  List.decidableInfix path.data msg.data

/-- A fully successful environment over trivial collaborator types, used to
exercise the theorems on concrete runs. -/
def okEnv : Env Nat Nat Nat Nat where
  readFile := fun _ => .ok [0]
  fromCBOR := fun _ => .ok 0
  corimValid := fun _ => .ok ()
  fromJSON := fun _ => .ok 0
  metaValid := fun _ => .ok ()
  newSignerFromJWK := fun _ => .ok 0
  mkSignedCorim := fun _ _ => 0
  addSigningCert := fun s _ => .ok s
  addIntermediateCerts := fun s _ => .ok s
  signCorim := fun _ _ => .ok [7]
  writeFile := fun _ _ => .ok ()

/-- Environment whose manifest validation (UnsignedCorim.Valid) fails. -/
def badValidEnv : Env Nat Nat Nat Nat :=
  { okEnv with corimValid := fun _ => .error "boom" }

/-- Environment whose file reads all fail. -/
def badReadEnv : Env Nat Nat Nat Nat :=
  { okEnv with readFile := fun _ => .error "open: no such file" }

/-- Trace segment contributed by the optional signing-certificate block. -/
def certSeg (certFile : Option String) : List Event :=
  match certFile with
  | none => []
  | some cf => if cf = "" then [] else [.readFile .cert cf, .addSigningCert]

/-- Trace segment contributed by the optional intermediates block. -/
def interSeg (intermediatesFile : Option String) : List Event :=
  match intermediatesFile with
  | none => []
  | some inf => if inf = "" then [] else [.readFile .intermediates inf, .addIntermediateCerts]

/-- Traces only grow: the finishing stage appends to the accumulated trace. -/
theorem signFinish_trace_mono {U M Sg C : Type} (env : Env U M Sg C) (s : C) (sg : Sg)
    (uf : String) (out : Option String) (t0 : List Event)
    (r : Except String String) (t : List Event)
    (h : signFinish env s sg uf out t0 = (r, t)) : ∃ t2, t = t0 ++ t2 := by
  unfold signFinish at h
  split at h
  · cases h; exact ⟨_, rfl⟩
  · split at h <;> (cases h; exact ⟨_, rfl⟩)

/-- Traces only grow through the intermediates stage. -/
theorem signAttachIntermediates_trace_mono {U M Sg C : Type} (env : Env U M Sg C)
    (s : C) (sg : Sg) (uf : String) (out cert inter : Option String) (t0 : List Event)
    (r : Except String String) (t : List Event)
    (h : signAttachIntermediates env s sg uf out cert inter t0 = (r, t)) :
    ∃ t2, t = t0 ++ t2 := by
  unfold signAttachIntermediates at h
  split at h
  · exact signFinish_trace_mono env s sg uf out t0 r t h
  · split at h
    · exact signFinish_trace_mono env s sg uf out t0 r t h
    · split at h
      · cases h; exact ⟨[], by simp⟩
      · split at h
        · cases h; exact ⟨_, rfl⟩
        · split at h
          · cases h; exact ⟨_, rfl⟩
          · obtain ⟨t2, ht⟩ := signFinish_trace_mono _ _ _ _ _ _ _ _ h
            exact ⟨_, by rw [ht, List.append_assoc]⟩

/-- Traces only grow through the certificate stage. -/
theorem signAttachCerts_trace_mono {U M Sg C : Type} (env : Env U M Sg C)
    (s : C) (sg : Sg) (uf : String) (out cert inter : Option String) (t0 : List Event)
    (r : Except String String) (t : List Event)
    (h : signAttachCerts env s sg uf out cert inter t0 = (r, t)) :
    ∃ t2, t = t0 ++ t2 := by
  unfold signAttachCerts at h
  split at h
  · exact signAttachIntermediates_trace_mono _ _ _ _ _ _ _ _ _ _ h
  · split at h
    · exact signAttachIntermediates_trace_mono _ _ _ _ _ _ _ _ _ _ h
    · split at h
      · cases h; exact ⟨_, rfl⟩
      · split at h
        · cases h; exact ⟨_, rfl⟩
        · obtain ⟨t2, ht⟩ := signAttachIntermediates_trace_mono _ _ _ _ _ _ _ _ _ _ h
          exact ⟨_, by rw [ht, List.append_assoc]⟩

/-- Characterization of the finishing stage: it performs no reads, and any
write it records targets the resolved output path with the bytes that
s.Sign(signer) successfully produced; the result is then either success on
that path or the save error for it.  At most one write is recorded. -/
theorem signFinish_spec {U M Sg C : Type} (env : Env U M Sg C) (s : C) (sg : Sg)
    (uf : String) (out : Option String) (t0 : List Event)
    (r : Except String String) (t : List Event)
    (h : signFinish env s sg uf out t0 = (r, t)) :
    ∃ t2, t = t0 ++ t2 ∧
      (∀ st p, Event.readFile st p ∈ t2 → False) ∧
      (∀ p b, Event.writeFile p b ∈ t2 →
        p = resolvedOutputPath uf out ∧ env.signCorim s sg = .ok b ∧
        (r = .ok p ∨ ∃ e, r = .error ("error saving signed CoRIM to file " ++ p ++ ": " ++ e))) ∧
      (∀ p b p2 b2, Event.writeFile p b ∈ t2 → Event.writeFile p2 b2 ∈ t2 →
        p = p2 ∧ b = b2) := by
  unfold signFinish at h
  split at h
  · cases h
    exact ⟨[Event.signCall], rfl, by simp, by simp, by simp⟩
  case _ signedCorimCBOR heq =>
    split at h <;> cases h
    case _ e heq2 =>
      refine ⟨_, rfl, by simp, ?_, ?_⟩
      · intro p b hmem
        simp only [List.mem_cons, List.not_mem_nil, or_false] at hmem
        rcases hmem with hmem | hmem
        · exact absurd hmem (by simp)
        · obtain ⟨hp, hb⟩ := Event.writeFile.inj hmem
          subst hp; subst hb
          exact ⟨rfl, heq, Or.inr ⟨e, rfl⟩⟩
      · intro p b p2 b2 h1 h2
        simp only [List.mem_cons, List.not_mem_nil, or_false] at h1 h2
        rcases h1 with h1 | h1
        · exact absurd h1 (by simp)
        · rcases h2 with h2 | h2
          · exact absurd h2 (by simp)
          · obtain ⟨hp, hb⟩ := Event.writeFile.inj h1
            obtain ⟨hp2, hb2⟩ := Event.writeFile.inj h2
            subst hp; subst hb; subst hp2; subst hb2; exact ⟨rfl, rfl⟩
    case _ heq2 =>
      refine ⟨_, rfl, by simp, ?_, ?_⟩
      · intro p b hmem
        simp only [List.mem_cons, List.not_mem_nil, or_false] at hmem
        rcases hmem with hmem | hmem
        · exact absurd hmem (by simp)
        · obtain ⟨hp, hb⟩ := Event.writeFile.inj hmem
          subst hp; subst hb
          exact ⟨rfl, heq, Or.inl rfl⟩
      · intro p b p2 b2 h1 h2
        simp only [List.mem_cons, List.not_mem_nil, or_false] at h1 h2
        rcases h1 with h1 | h1
        · exact absurd h1 (by simp)
        · rcases h2 with h2 | h2
          · exact absurd h2 (by simp)
          · obtain ⟨hp, hb⟩ := Event.writeFile.inj h1
            obtain ⟨hp2, hb2⟩ := Event.writeFile.inj h2
            subst hp; subst hb; subst hp2; subst hb2; exact ⟨rfl, rfl⟩

/-- Characterization of the intermediates stage: its only read is of the
intermediates path when one was supplied, and any write targets the resolved
output path with successfully signed bytes. -/
theorem signAttachIntermediates_spec {U M Sg C : Type} (env : Env U M Sg C)
    (s : C) (sg : Sg) (uf : String) (out cert inter : Option String) (t0 : List Event)
    (r : Except String String) (t : List Event)
    (h : signAttachIntermediates env s sg uf out cert inter t0 = (r, t)) :
    ∃ t2, t = t0 ++ t2 ∧
      (∀ st p, Event.readFile st p ∈ t2 → st = Stage.intermediates ∧ inter = some p) ∧
      (∀ p b, Event.writeFile p b ∈ t2 →
        p = resolvedOutputPath uf out ∧ (∃ s2, env.signCorim s2 sg = .ok b) ∧
        (r = .ok p ∨ ∃ e, r = .error ("error saving signed CoRIM to file " ++ p ++ ": " ++ e))) ∧
      (∀ p b p2 b2, Event.writeFile p b ∈ t2 → Event.writeFile p2 b2 ∈ t2 →
        p = p2 ∧ b = b2) := by
  unfold signAttachIntermediates at h
  split at h
  · obtain ⟨t2, ht, hrd, hwr, hu⟩ := signFinish_spec env s sg uf out t0 r t h
    exact ⟨t2, ht, fun st p hm => (hrd st p hm).elim,
      fun p b hm => ⟨(hwr p b hm).1, ⟨s, (hwr p b hm).2.1⟩, (hwr p b hm).2.2⟩, hu⟩
  · split at h
    · obtain ⟨t2, ht, hrd, hwr, hu⟩ := signFinish_spec env s sg uf out t0 r t h
      exact ⟨t2, ht, fun st p hm => (hrd st p hm).elim,
        fun p b hm => ⟨(hwr p b hm).1, ⟨s, (hwr p b hm).2.1⟩, (hwr p b hm).2.2⟩, hu⟩
    · split at h
      · cases h
        exact ⟨[], by simp, by simp, by simp, by simp⟩
      · split at h
        · cases h
          exact ⟨_, rfl, by simp, by simp, by simp⟩
        · split at h
          · cases h
            exact ⟨_, rfl, by simp, by simp, by simp⟩
          case _ inf hne hcert xr scc DER xa s2 hadd =>
            obtain ⟨t3, ht, hrd, hwr, hu⟩ := signFinish_spec env s2 sg uf out _ r t h
            refine ⟨[Event.readFile Stage.intermediates inf, Event.addIntermediateCerts] ++ t3,
              by rw [ht, List.append_assoc], ?_, ?_, ?_⟩
            · intro st p hm
              rcases List.mem_append.1 hm with hm | hm
              · simp only [List.mem_cons, List.not_mem_nil, or_false] at hm
                rcases hm with hm | hm
                · obtain ⟨hst, hp⟩ := Event.readFile.inj hm
                  exact ⟨hst, by rw [hp]⟩
                · exact absurd hm (by simp)
              · exact absurd (hrd st p hm) (by simp [hrd st p hm])
            · intro p b hm
              rcases List.mem_append.1 hm with hm | hm
              · exact absurd hm (by simp)
              · exact ⟨(hwr p b hm).1, ⟨s2, (hwr p b hm).2.1⟩, (hwr p b hm).2.2⟩
            · intro p b p2 b2 h1 h2
              rcases List.mem_append.1 h1 with h1 | h1
              · exact absurd h1 (by simp)
              · rcases List.mem_append.1 h2 with h2 | h2
                · exact absurd h2 (by simp)
                · exact hu p b p2 b2 h1 h2

/-- Characterization of the certificate stage: its only reads are of the
certificate path and the intermediates path when supplied, and any write
targets the resolved output path with successfully signed bytes. -/
theorem signAttachCerts_spec {U M Sg C : Type} (env : Env U M Sg C)
    (s : C) (sg : Sg) (uf : String) (out cert inter : Option String) (t0 : List Event)
    (r : Except String String) (t : List Event)
    (h : signAttachCerts env s sg uf out cert inter t0 = (r, t)) :
    ∃ t2, t = t0 ++ t2 ∧
      (∀ st p, Event.readFile st p ∈ t2 →
        (st = Stage.cert ∧ cert = some p) ∨ (st = Stage.intermediates ∧ inter = some p)) ∧
      (∀ p b, Event.writeFile p b ∈ t2 →
        p = resolvedOutputPath uf out ∧ (∃ s2, env.signCorim s2 sg = .ok b) ∧
        (r = .ok p ∨ ∃ e, r = .error ("error saving signed CoRIM to file " ++ p ++ ": " ++ e))) ∧
      (∀ p b p2 b2, Event.writeFile p b ∈ t2 → Event.writeFile p2 b2 ∈ t2 →
        p = p2 ∧ b = b2) := by
  unfold signAttachCerts at h
  split at h
  · obtain ⟨t2, ht, hrd, hwr, hu⟩ :=
      signAttachIntermediates_spec env s sg uf out _ inter t0 r t h
    exact ⟨t2, ht, fun st p hm => Or.inr (hrd st p hm), hwr, hu⟩
  · split at h
    · obtain ⟨t2, ht, hrd, hwr, hu⟩ :=
        signAttachIntermediates_spec env s sg uf out _ inter t0 r t h
      exact ⟨t2, ht, fun st p hm => Or.inr (hrd st p hm), hwr, hu⟩
    · split at h
      · cases h
        exact ⟨_, rfl, by simp, by simp, by simp⟩
      · split at h
        · cases h
          exact ⟨_, rfl, by simp, by simp, by simp⟩
        case _ cf hne xr scc DER xa s2 hadd =>
          obtain ⟨t3, ht, hrd, hwr, hu⟩ :=
            signAttachIntermediates_spec env s2 sg uf out (some cf) inter _ r t h
          refine ⟨[Event.readFile Stage.cert cf, Event.addSigningCert] ++ t3,
            by rw [ht, List.append_assoc], ?_, ?_, ?_⟩
          · intro st p hm
            rcases List.mem_append.1 hm with hm | hm
            · simp only [List.mem_cons, List.not_mem_nil, or_false] at hm
              rcases hm with hm | hm
              · obtain ⟨hst, hp⟩ := Event.readFile.inj hm
                exact Or.inl ⟨hst, by rw [hp]⟩
              · exact absurd hm (by simp)
            · exact Or.inr (hrd st p hm)
          · intro p b hm
            rcases List.mem_append.1 hm with hm | hm
            · exact absurd hm (by simp)
            · exact hwr p b hm
          · intro p b p2 b2 h1 h2
            rcases List.mem_append.1 h1 with h1 | h1
            · exact absurd h1 (by simp)
            · rcases List.mem_append.1 h2 with h2 | h2
              · exact absurd h2 (by simp)
              · exact hu p b p2 b2 h1 h2

/-- On success the finishing stage returns the resolved output path and its
trace records exactly the signing call followed by the write of the signed
bytes to that path. -/
theorem signFinish_ok {U M Sg C : Type} (env : Env U M Sg C) (s : C) (sg : Sg)
    (uf : String) (out : Option String) (t0 : List Event)
    (p : String) (t : List Event)
    (h : signFinish env s sg uf out t0 = (.ok p, t)) :
    p = resolvedOutputPath uf out ∧
    ∃ b, env.signCorim s sg = .ok b ∧
      t = t0 ++ [Event.signCall, Event.writeFile p b] := by
  unfold signFinish at h
  split at h
  · simp at h
  · split at h
    · simp at h
    case _ x1 scc hsign x2 u hw =>
      rw [Prod.mk.injEq] at h
      obtain ⟨h1, h2⟩ := h
      have hp := Except.ok.inj h1
      refine ⟨hp.symm, scc, hsign, ?_⟩
      rw [← h2, ← hp]

/-- On success the intermediates stage contributes its trace segment followed
by the finishing events. -/
theorem signAttachIntermediates_ok {U M Sg C : Type} (env : Env U M Sg C)
    (s : C) (sg : Sg) (uf : String) (out cert inter : Option String) (t0 : List Event)
    (p : String) (t : List Event)
    (h : signAttachIntermediates env s sg uf out cert inter t0 = (.ok p, t)) :
    p = resolvedOutputPath uf out ∧
    ∃ b, t = t0 ++ interSeg inter ++ [Event.signCall, Event.writeFile p b] := by
  unfold signAttachIntermediates at h
  split at h
  · obtain ⟨hp, b, hsign, ht⟩ := signFinish_ok env s sg uf out t0 p t h
    exact ⟨hp, b, by simp [interSeg, ht]⟩
  · split at h
    case _ inf hinf =>
      obtain ⟨hp, b, hsign, ht⟩ := signFinish_ok env s sg uf out t0 p t h
      exact ⟨hp, b, by simp [interSeg, hinf, ht]⟩
    case _ inf hinf =>
      split at h
      · simp at h
      · split at h
        · simp at h
        · split at h
          · simp at h
          case _ hcert xr scc DER xa s2 hadd =>
            obtain ⟨hp, b, hsign, ht⟩ := signFinish_ok env s2 sg uf out _ p t h
            refine ⟨hp, b, ?_⟩
            rw [ht]
            simp [interSeg, hinf, List.append_assoc]

/-- On success the certificate stage contributes its trace segment, then the
intermediates segment, then the finishing events. -/
theorem signAttachCerts_ok {U M Sg C : Type} (env : Env U M Sg C)
    (s : C) (sg : Sg) (uf : String) (out cert inter : Option String) (t0 : List Event)
    (p : String) (t : List Event)
    (h : signAttachCerts env s sg uf out cert inter t0 = (.ok p, t)) :
    p = resolvedOutputPath uf out ∧
    ∃ b, t = t0 ++ certSeg cert ++ interSeg inter
        ++ [Event.signCall, Event.writeFile p b] := by
  unfold signAttachCerts at h
  split at h
  · obtain ⟨hp, b, ht⟩ := signAttachIntermediates_ok env s sg uf out _ inter t0 p t h
    exact ⟨hp, b, by simp [certSeg, ht]⟩
  · split at h
    case _ cf hcf =>
      obtain ⟨hp, b, ht⟩ := signAttachIntermediates_ok env s sg uf out _ inter t0 p t h
      exact ⟨hp, b, by simp [certSeg, hcf, ht]⟩
    case _ cf hcf =>
      split at h
      · simp at h
      · split at h
        · simp at h
        case _ xr scc DER xa s2 hadd =>
          obtain ⟨hp, b, ht⟩ := signAttachIntermediates_ok env s2 sg uf out _ inter _ p t h
          refine ⟨hp, b, ?_⟩
          rw [ht]
          simp [certSeg, hcf, List.append_assoc]

/-- When an intermediates path is supplied but no certificate path is, the
intermediates stage fails immediately with the missing-certificate error and
leaves the trace untouched. -/
theorem signAttachIntermediates_no_cert {U M Sg C : Type} (env : Env U M Sg C)
    (s : C) (sg : Sg) (uf : String) (out cert inter : Option String) (t0 : List Event)
    (r : Except String String) (t : List Event)
    (hc : optPresent cert = false) (hi : optPresent inter = true)
    (h : signAttachIntermediates env s sg uf out cert inter t0 = (r, t)) :
    r = .error "cannot add intermediate certificates without a signing certificate"
      ∧ t = t0 := by
  cases inter with
  | none => simp [optPresent] at hi
  | some inf =>
    have hne : ¬(inf = "") := by
      intro hcon
      rw [hcon] at hi
      simp [optPresent] at hi
    rw [signAttachIntermediates.eq_def] at h
    simp only [hne, if_false, hc, if_true, ite_false, ite_true] at h
    rw [Prod.mk.injEq] at h
    exact ⟨h.1.symm, h.2.symm⟩

/-- When an intermediates path is supplied but no certificate path is, the
certificate stage (which skips its own block) propagates the
missing-certificate failure with the trace untouched. -/
theorem signAttachCerts_no_cert {U M Sg C : Type} (env : Env U M Sg C)
    (s : C) (sg : Sg) (uf : String) (out cert inter : Option String) (t0 : List Event)
    (r : Except String String) (t : List Event)
    (hc : optPresent cert = false) (hi : optPresent inter = true)
    (h : signAttachCerts env s sg uf out cert inter t0 = (r, t)) :
    r = .error "cannot add intermediate certificates without a signing certificate"
      ∧ t = t0 := by
  cases cert with
  | none =>
    rw [signAttachCerts.eq_def] at h
    exact signAttachIntermediates_no_cert env s sg uf out none inter t0 r t hc hi h
  | some cf =>
    have hcf : cf = "" := by
      by_contra hcon
      simp [optPresent, hcon] at hc
    rw [signAttachCerts.eq_def] at h
    simp only [hcf, ite_true, if_true] at h
    exact signAttachIntermediates_no_cert env s sg uf out (some "") inter t0 r t
      (by simp [optPresent]) hi (by simpa [hcf] using h)

/-- C5: for the sign command, a missing or empty manifest path, key path or
metadata path makes the command fail with, respectively, "no CoRIM supplied",
"no key supplied" or "no CoRIM Meta supplied" (checked in that order), with an
empty effect trace: no file is read and no other work begins. -/
theorem corimSign_mandatory_args {U M Sg C : Type} (env : Env U M Sg C)
    (corimFile keyFile metaFile outputFile certFile intermediatesFile : Option String) :
    (optPresent corimFile = false →
      runE env corimFile keyFile metaFile outputFile certFile intermediatesFile
        = (.error "no CoRIM supplied", []))
    ∧ (optPresent corimFile = true → optPresent keyFile = false →
      runE env corimFile keyFile metaFile outputFile certFile intermediatesFile
        = (.error "no key supplied", []))
    ∧ (optPresent corimFile = true → optPresent keyFile = true →
        optPresent metaFile = false →
      runE env corimFile keyFile metaFile outputFile certFile intermediatesFile
        = (.error "no CoRIM Meta supplied", [])) := by
  refine ⟨?_, ?_, ?_⟩
  · intro h1
    simp [runE, checkCorimSignArgs, h1]
  · intro h1 h2
    simp [runE, checkCorimSignArgs, h1, h2]
  · intro h1 h2 h3
    simp [runE, checkCorimSignArgs, h1, h2, h3]

/-- C5 witness: with no CoRIM file flag the command fails with
"no CoRIM supplied" and an empty trace. -/
theorem corimSign_mandatory_args_witness :
    runE okEnv none (some "key.jwk") (some "meta.json") none none none
      = (.error "no CoRIM supplied", []) :=
  (corimSign_mandatory_args okEnv none (some "key.jwk") (some "meta.json")
    none none none).1 rfl

/-- C4: on success, sign returns the path that was written: with no output
path (nil or empty) it is the source manifest name prefixed with "signed-",
and with a non-empty output path it is exactly that path; in both cases the
trace records the write to the returned path. -/
theorem sign_output_path {U M Sg C : Type} (env : Env U M Sg C)
    (uf kf mf : String) (out cert inter : Option String)
    (p : String) (t : List Event)
    (h : sign env uf kf mf out cert inter = (.ok p, t)) :
    (out = none ∨ out = some "" → p = "signed-" ++ uf)
    ∧ (∀ o, out = some o → ¬(o = "") → p = o)
    ∧ (∃ b, Event.writeFile p b ∈ t) := by
  unfold sign at h
  split at h
  · simp at h
  · split at h
    · simp at h
    · split at h
      · simp at h
      · split at h
        · simp at h
        · split at h
          · simp at h
          · split at h
            · simp at h
            · split at h
              · simp at h
              · split at h
                · simp at h
                · obtain ⟨hp, b, ht⟩ := signAttachCerts_ok env _ _ uf out cert inter _ p t h
                  refine ⟨?_, ?_, b, by simp [ht]⟩
                  · intro ho
                    rcases ho with ho | ho <;> simp [hp, resolvedOutputPath, ho]
                  · intro o ho hne
                    simp [hp, resolvedOutputPath, ho, hne]

/-- C4 witness: with no output flag, signing corim.cbor writes
signed-corim.cbor and returns that path. -/
theorem sign_output_path_witness :
    ("signed-corim.cbor" : String) = "signed-" ++ "corim.cbor"
    ∧ (∃ b, Event.writeFile "signed-corim.cbor" b ∈
        (sign okEnv "corim.cbor" "key.jwk" "meta.json" none none none).2) :=
  ⟨(sign_output_path okEnv "corim.cbor" "key.jwk" "meta.json" none none none
      "signed-corim.cbor" _ rfl).1 (Or.inl rfl),
   (sign_output_path okEnv "corim.cbor" "key.jwk" "meta.json" none none none
      "signed-corim.cbor" _ rfl).2.2⟩

/-- C7: every successful run of sign performs, in order: read and decode and
validate the unsigned manifest, read and decode and validate the Meta, read
the key and construct the signer, construct the SignedCorim assembler state,
the optional certificate attachment, the optional intermediates attachment,
the signing call, and finally the single write of the envelope. -/
theorem sign_step_order {U M Sg C : Type} (env : Env U M Sg C)
    (uf kf mf : String) (out cert inter : Option String)
    (p : String) (t : List Event)
    (h : sign env uf kf mf out cert inter = (.ok p, t)) :
    ∃ b, t = [Event.readFile .manifest uf, Event.decodeCBOR, Event.validCorim,
        Event.readFile .meta mf, Event.decodeJSON, Event.validMeta,
        Event.readFile .key kf, Event.newSigner, Event.mkAssembler]
      ++ certSeg cert ++ interSeg inter
      ++ [Event.signCall, Event.writeFile p b] := by
  unfold sign at h
  split at h
  · simp at h
  · split at h
    · simp at h
    · split at h
      · simp at h
      · split at h
        · simp at h
        · split at h
          · simp at h
          · split at h
            · simp at h
            · split at h
              · simp at h
              · split at h
                · simp at h
                · obtain ⟨hp, b, ht⟩ := signAttachCerts_ok env _ _ uf out cert inter _ p t h
                  exact ⟨b, ht⟩

/-- C7 witness: a fully-specified successful run records exactly the expected
event sequence. -/
theorem sign_step_order_witness :
    ∃ b, (sign okEnv "corim.cbor" "key.jwk" "meta.json" (some "out.cbor")
        (some "cert.der") (some "chain.der")).2
      = [Event.readFile .manifest "corim.cbor", Event.decodeCBOR, Event.validCorim,
          Event.readFile .meta "meta.json", Event.decodeJSON, Event.validMeta,
          Event.readFile .key "key.jwk", Event.newSigner, Event.mkAssembler]
        ++ certSeg (some "cert.der") ++ interSeg (some "chain.der")
        ++ [Event.signCall, Event.writeFile "out.cbor" b] :=
  sign_step_order okEnv "corim.cbor" "key.jwk" "meta.json" (some "out.cbor")
    (some "cert.der") (some "chain.der") "out.cbor" _ rfl

/-- C1: an unsigned manifest that fails validation never reaches the Signer:
whenever the trace contains the signer construction or the signing call, the
manifest was already read, decoded and successfully validated, with those
three events first in the trace; and on a validation failure sign returns the
validation error and the trace contains no signing call and no signer
construction. -/
theorem sign_validates_before_signing {U M Sg C : Type} (env : Env U M Sg C)
    (uf kf mf : String) (out cert inter : Option String)
    (r : Except String String) (t : List Event)
    (h : sign env uf kf mf out cert inter = (r, t)) :
    (Event.newSigner ∈ t ∨ Event.signCall ∈ t →
      ∃ bs c, env.readFile uf = .ok bs ∧ env.fromCBOR bs = .ok c ∧
        env.corimValid c = .ok () ∧
        ∃ t2, t = [Event.readFile .manifest uf, Event.decodeCBOR, Event.validCorim] ++ t2)
    ∧ (∀ bs c e, env.readFile uf = .ok bs → env.fromCBOR bs = .ok c →
        env.corimValid c = .error e →
        r = .error ("error validating CoRIM: " ++ e) ∧
        Event.signCall ∉ t ∧ Event.newSigner ∉ t) := by
  unfold sign at h
  split at h
  · rw [Prod.mk.injEq] at h
    obtain ⟨hr, ht⟩ := h
    subst hr; subst ht
    constructor
    · intro hmem; simp at hmem
    · intro bs c e2 h1 h2 h3; simp_all
  · split at h
    · rw [Prod.mk.injEq] at h
      obtain ⟨hr, ht⟩ := h
      subst hr; subst ht
      constructor
      · intro hmem; simp at hmem
      · intro bs c e2 h1 h2 h3; simp_all
    · split at h
      · rw [Prod.mk.injEq] at h
        obtain ⟨hr, ht⟩ := h
        subst hr; subst ht
        constructor
        · intro hmem; simp at hmem
        · intro bs c e2 h1 h2 h3; simp_all
      · split at h
        · rw [Prod.mk.injEq] at h
          obtain ⟨hr, ht⟩ := h
          subst hr; subst ht
          constructor
          · intro hmem; simp at hmem
          · intro bs c e2 h1 h2 h3; simp_all
        · split at h
          · rw [Prod.mk.injEq] at h
            obtain ⟨hr, ht⟩ := h
            subst hr; subst ht
            constructor
            · intro hmem; simp at hmem
            · intro bs c e2 h1 h2 h3; simp_all
          · split at h
            · rw [Prod.mk.injEq] at h
              obtain ⟨hr, ht⟩ := h
              subst hr; subst ht
              constructor
              · intro hmem; simp at hmem
              · intro bs c e2 h1 h2 h3; simp_all
            · split at h
              · rw [Prod.mk.injEq] at h
                obtain ⟨hr, ht⟩ := h
                subst hr; subst ht
                constructor
                · intro hmem; simp at hmem
                · intro bs c e2 h1 h2 h3; simp_all
              · split at h
                · rw [Prod.mk.injEq] at h
                  obtain ⟨hr, ht⟩ := h
                  subst hr; subst ht
                  constructor
                  · intro hmem
                    exact ⟨_, _, by assumption, by assumption, by assumption,
                      [Event.readFile .meta mf, Event.decodeJSON, Event.validMeta,
                       Event.readFile .key kf, Event.newSigner], rfl⟩
                  · intro bs c2 e3 h1 h2 h3; simp_all
                · obtain ⟨t2, ht⟩ :=
                    signAttachCerts_trace_mono env _ _ uf out cert inter _ r t h
                  constructor
                  · intro hmem
                    exact ⟨_, _, by assumption, by assumption, by assumption,
                      [Event.readFile .meta mf, Event.decodeJSON, Event.validMeta,
                       Event.readFile .key kf, Event.newSigner, Event.mkAssembler] ++ t2,
                      by rw [ht]; simp⟩
                  · intro bs c2 e3 h1 h2 h3; simp_all

/-- C1 witness: with a failing manifest validation, sign returns the
validation error and its trace contains neither the signer construction nor
the signing call. -/
theorem sign_validates_before_signing_witness :
    (Except.error ("error validating CoRIM: " ++ "boom") : Except String String)
      = .error ("error validating CoRIM: " ++ "boom")
    ∧ Event.signCall ∉
        [Event.readFile .manifest "corim.cbor", Event.decodeCBOR, Event.validCorim]
    ∧ Event.newSigner ∉
        [Event.readFile .manifest "corim.cbor", Event.decodeCBOR, Event.validCorim] :=
  (sign_validates_before_signing badValidEnv "corim.cbor" "key.jwk" "meta.json"
      none none none
      (.error ("error validating CoRIM: " ++ "boom"))
      [Event.readFile .manifest "corim.cbor", Event.decodeCBOR, Event.validCorim]
      rfl).2 [0] 0 "boom" rfl rfl rfl

/-- C2: when an intermediates path is supplied (non-nil, non-empty) but the
certificate path is nil or empty, sign fails: the result is an error, nothing
is written, the signing call never happens and no intermediates are attached;
and whenever all steps before the certificate block succeed the error is
exactly "cannot add intermediate certificates without a signing certificate". -/
theorem sign_intermediates_require_cert {U M Sg C : Type} (env : Env U M Sg C)
    (uf kf mf : String) (out cert inter : Option String)
    (r : Except String String) (t : List Event)
    (hi : optPresent inter = true) (hc : optPresent cert = false)
    (h : sign env uf kf mf out cert inter = (r, t)) :
    (∃ e, r = .error e)
    ∧ (∀ p b, Event.writeFile p b ∉ t)
    ∧ Event.signCall ∉ t
    ∧ Event.addIntermediateCerts ∉ t
    ∧ (∀ bs c mbs m kbs sg, env.readFile uf = .ok bs → env.fromCBOR bs = .ok c →
        env.corimValid c = .ok () → env.readFile mf = .ok mbs →
        env.fromJSON mbs = .ok m → env.metaValid m = .ok () →
        env.readFile kf = .ok kbs → env.newSignerFromJWK kbs = .ok sg →
        r = .error "cannot add intermediate certificates without a signing certificate") := by
  unfold sign at h
  split at h
  · rw [Prod.mk.injEq] at h
    obtain ⟨hr, ht⟩ := h
    subst hr; subst ht
    refine ⟨⟨_, rfl⟩, by simp, by simp, by simp, ?_⟩
    intro bs c mbs m kbs sg h1 h2 h3 h4 h5 h6 h7 h8
    simp_all
  · split at h
    · rw [Prod.mk.injEq] at h
      obtain ⟨hr, ht⟩ := h
      subst hr; subst ht
      refine ⟨⟨_, rfl⟩, by simp, by simp, by simp, ?_⟩
      intro bs c mbs m kbs sg h1 h2 h3 h4 h5 h6 h7 h8
      simp_all
    · split at h
      · rw [Prod.mk.injEq] at h
        obtain ⟨hr, ht⟩ := h
        subst hr; subst ht
        refine ⟨⟨_, rfl⟩, by simp, by simp, by simp, ?_⟩
        intro bs c mbs m kbs sg h1 h2 h3 h4 h5 h6 h7 h8
        simp_all
      · split at h
        · rw [Prod.mk.injEq] at h
          obtain ⟨hr, ht⟩ := h
          subst hr; subst ht
          refine ⟨⟨_, rfl⟩, by simp, by simp, by simp, ?_⟩
          intro bs c mbs m kbs sg h1 h2 h3 h4 h5 h6 h7 h8
          simp_all
        · split at h
          · rw [Prod.mk.injEq] at h
            obtain ⟨hr, ht⟩ := h
            subst hr; subst ht
            refine ⟨⟨_, rfl⟩, by simp, by simp, by simp, ?_⟩
            intro bs c mbs m kbs sg h1 h2 h3 h4 h5 h6 h7 h8
            simp_all
          · split at h
            · rw [Prod.mk.injEq] at h
              obtain ⟨hr, ht⟩ := h
              subst hr; subst ht
              refine ⟨⟨_, rfl⟩, by simp, by simp, by simp, ?_⟩
              intro bs c mbs m kbs sg h1 h2 h3 h4 h5 h6 h7 h8
              simp_all
            · split at h
              · rw [Prod.mk.injEq] at h
                obtain ⟨hr, ht⟩ := h
                subst hr; subst ht
                refine ⟨⟨_, rfl⟩, by simp, by simp, by simp, ?_⟩
                intro bs c mbs m kbs sg h1 h2 h3 h4 h5 h6 h7 h8
                simp_all
              · split at h
                · rw [Prod.mk.injEq] at h
                  obtain ⟨hr, ht⟩ := h
                  subst hr; subst ht
                  refine ⟨⟨_, rfl⟩, by simp, by simp, by simp, ?_⟩
                  intro bs c mbs m kbs sg h1 h2 h3 h4 h5 h6 h7 h8
                  simp_all
                · obtain ⟨hr, ht⟩ := signAttachCerts_no_cert env _ _ uf out cert inter _ r t hc hi h
                  subst ht
                  refine ⟨⟨_, hr⟩, by simp, by simp, by simp, ?_⟩
                  intro bs c mbs m kbs sg h1 h2 h3 h4 h5 h6 h7 h8
                  exact hr

/-- C2 witness: intermediates supplied without a certificate on an otherwise
fully-successful environment yields the missing-certificate error. -/
theorem sign_intermediates_require_cert_witness :
    (Except.error "cannot add intermediate certificates without a signing certificate"
        : Except String String)
      = .error "cannot add intermediate certificates without a signing certificate" :=
  (sign_intermediates_require_cert okEnv "corim.cbor" "key.jwk" "meta.json"
      none none (some "chain.der")
      (.error "cannot add intermediate certificates without a signing certificate")
      [Event.readFile .manifest "corim.cbor", Event.decodeCBOR, Event.validCorim,
       Event.readFile .meta "meta.json", Event.decodeJSON, Event.validMeta,
       Event.readFile .key "key.jwk", Event.newSigner, Event.mkAssembler]
      rfl rfl rfl).2.2.2.2
    [0] 0 [0] 0 [0] 0 rfl rfl rfl rfl rfl rfl rfl rfl

/-- C10: when an intermediates path is supplied without a certificate path,
the intermediates file is never read, whatever its content or readability;
and whenever all earlier steps succeed the result is the missing-certificate
error, reported without touching the intermediates path. -/
theorem sign_intermediates_never_read {U M Sg C : Type} (env : Env U M Sg C)
    (uf kf mf : String) (out cert inter : Option String)
    (r : Except String String) (t : List Event)
    (hi : optPresent inter = true) (hc : optPresent cert = false)
    (h : sign env uf kf mf out cert inter = (r, t)) :
    (∀ p, Event.readFile Stage.intermediates p ∉ t)
    ∧ (∀ bs c mbs m kbs sg, env.readFile uf = .ok bs → env.fromCBOR bs = .ok c →
        env.corimValid c = .ok () → env.readFile mf = .ok mbs →
        env.fromJSON mbs = .ok m → env.metaValid m = .ok () →
        env.readFile kf = .ok kbs → env.newSignerFromJWK kbs = .ok sg →
        r = .error "cannot add intermediate certificates without a signing certificate") := by
  unfold sign at h
  split at h
  · rw [Prod.mk.injEq] at h
    obtain ⟨hr, ht⟩ := h
    subst hr; subst ht
    refine ⟨by simp, ?_⟩
    intro bs c mbs m kbs sg h1 h2 h3 h4 h5 h6 h7 h8
    simp_all
  · split at h
    · rw [Prod.mk.injEq] at h
      obtain ⟨hr, ht⟩ := h
      subst hr; subst ht
      refine ⟨by simp, ?_⟩
      intro bs c mbs m kbs sg h1 h2 h3 h4 h5 h6 h7 h8
      simp_all
    · split at h
      · rw [Prod.mk.injEq] at h
        obtain ⟨hr, ht⟩ := h
        subst hr; subst ht
        refine ⟨by simp, ?_⟩
        intro bs c mbs m kbs sg h1 h2 h3 h4 h5 h6 h7 h8
        simp_all
      · split at h
        · rw [Prod.mk.injEq] at h
          obtain ⟨hr, ht⟩ := h
          subst hr; subst ht
          refine ⟨by simp, ?_⟩
          intro bs c mbs m kbs sg h1 h2 h3 h4 h5 h6 h7 h8
          simp_all
        · split at h
          · rw [Prod.mk.injEq] at h
            obtain ⟨hr, ht⟩ := h
            subst hr; subst ht
            refine ⟨by simp, ?_⟩
            intro bs c mbs m kbs sg h1 h2 h3 h4 h5 h6 h7 h8
            simp_all
          · split at h
            · rw [Prod.mk.injEq] at h
              obtain ⟨hr, ht⟩ := h
              subst hr; subst ht
              refine ⟨by simp, ?_⟩
              intro bs c mbs m kbs sg h1 h2 h3 h4 h5 h6 h7 h8
              simp_all
            · split at h
              · rw [Prod.mk.injEq] at h
                obtain ⟨hr, ht⟩ := h
                subst hr; subst ht
                refine ⟨by simp, ?_⟩
                intro bs c mbs m kbs sg h1 h2 h3 h4 h5 h6 h7 h8
                simp_all
              · split at h
                · rw [Prod.mk.injEq] at h
                  obtain ⟨hr, ht⟩ := h
                  subst hr; subst ht
                  refine ⟨by simp, ?_⟩
                  intro bs c mbs m kbs sg h1 h2 h3 h4 h5 h6 h7 h8
                  simp_all
                · obtain ⟨hr, ht⟩ := signAttachCerts_no_cert env _ _ uf out cert inter _ r t hc hi h
                  subst ht
                  refine ⟨by simp, ?_⟩
                  intro bs c mbs m kbs sg h1 h2 h3 h4 h5 h6 h7 h8
                  exact hr

/-- C10 witness: with intermediates supplied and no certificate, even on an
environment whose reads all fail for the intermediates path, the trace of a
run never reads the intermediates file. -/
theorem sign_intermediates_never_read_witness :
    Event.readFile Stage.intermediates "chain.der" ∉
      [Event.readFile .manifest "corim.cbor", Event.decodeCBOR, Event.validCorim,
       Event.readFile .meta "meta.json", Event.decodeJSON, Event.validMeta,
       Event.readFile .key "key.jwk", Event.newSigner, Event.mkAssembler] :=
  (sign_intermediates_never_read okEnv "corim.cbor" "key.jwk" "meta.json"
      none none (some "chain.der")
      (.error "cannot add intermediate certificates without a signing certificate")
      [Event.readFile .manifest "corim.cbor", Event.decodeCBOR, Event.validCorim,
       Event.readFile .meta "meta.json", Event.decodeJSON, Event.validMeta,
       Event.readFile .key "key.jwk", Event.newSigner, Event.mkAssembler]
      rfl rfl rfl).1 "chain.der"


/-- C3: a write of the output file happens only after every prior step has
succeeded: any write recorded in the trace targets the resolved output path,
carries bytes that the signing call successfully produced, follows successful
manifest and Meta loading, decoding and validation and successful key/signer
loading, and the run result is then either success on that path or only the
save error for that path.  Hence an invocation failing in any earlier stage
writes nothing. -/
theorem sign_write_only_after_success {U M Sg C : Type} (env : Env U M Sg C)
    (uf kf mf : String) (out cert inter : Option String)
    (r : Except String String) (t : List Event)
    (h : sign env uf kf mf out cert inter = (r, t)) :
    ∀ p b, Event.writeFile p b ∈ t →
      p = resolvedOutputPath uf out
      ∧ (∃ bs c, env.readFile uf = .ok bs ∧ env.fromCBOR bs = .ok c ∧
          env.corimValid c = .ok ())
      ∧ (∃ mbs m, env.readFile mf = .ok mbs ∧ env.fromJSON mbs = .ok m ∧
          env.metaValid m = .ok ())
      ∧ (∃ kbs sg, env.readFile kf = .ok kbs ∧ env.newSignerFromJWK kbs = .ok sg)
      ∧ (∃ s2 sg, env.signCorim s2 sg = .ok b)
      ∧ (r = .ok p ∨
          ∃ e, r = .error ("error saving signed CoRIM to file " ++ p ++ ": " ++ e)) := by
  unfold sign at h
  split at h
  · rw [Prod.mk.injEq] at h
    obtain ⟨hr, ht⟩ := h
    subst hr; subst ht
    intro p b hm
    simp at hm
  · split at h
    · rw [Prod.mk.injEq] at h
      obtain ⟨hr, ht⟩ := h
      subst hr; subst ht
      intro p b hm
      simp at hm
    · split at h
      · rw [Prod.mk.injEq] at h
        obtain ⟨hr, ht⟩ := h
        subst hr; subst ht
        intro p b hm
        simp at hm
      · split at h
        · rw [Prod.mk.injEq] at h
          obtain ⟨hr, ht⟩ := h
          subst hr; subst ht
          intro p b hm
          simp at hm
        · split at h
          · rw [Prod.mk.injEq] at h
            obtain ⟨hr, ht⟩ := h
            subst hr; subst ht
            intro p b hm
            simp at hm
          · split at h
            · rw [Prod.mk.injEq] at h
              obtain ⟨hr, ht⟩ := h
              subst hr; subst ht
              intro p b hm
              simp at hm
            · split at h
              · rw [Prod.mk.injEq] at h
                obtain ⟨hr, ht⟩ := h
                subst hr; subst ht
                intro p b hm
                simp at hm
              · split at h
                · rw [Prod.mk.injEq] at h
                  obtain ⟨hr, ht⟩ := h
                  subst hr; subst ht
                  intro p b hm
                  simp at hm
                · obtain ⟨t2, ht, hrd, hwr, hu⟩ := signAttachCerts_spec env _ _ uf out cert inter _ r t h
                  intro p b hm
                  rw [ht] at hm
                  rcases List.mem_append.1 hm with hm | hm
                  · simp at hm
                  · obtain ⟨hp, ⟨s2, hsc⟩, hres⟩ := hwr p b hm
                    exact ⟨hp, ⟨_, _, by assumption, by assumption, by assumption⟩,
                      ⟨_, _, by assumption, by assumption, by assumption⟩,
                      ⟨_, _, by assumption, by assumption⟩, ⟨s2, _, hsc⟩, hres⟩

/-- C3 witness: the successful concrete run writes to the default output path
with signed bytes, and all prior steps are certified successful. -/
theorem sign_write_only_after_success_witness :
    ("signed-corim.cbor" : String) = resolvedOutputPath "corim.cbor" none
    ∧ (∃ bs c, okEnv.readFile "corim.cbor" = .ok bs ∧ okEnv.fromCBOR bs = .ok c ∧
        okEnv.corimValid c = .ok ())
    ∧ (∃ mbs m, okEnv.readFile "meta.json" = .ok mbs ∧ okEnv.fromJSON mbs = .ok m ∧
        okEnv.metaValid m = .ok ())
    ∧ (∃ kbs sg, okEnv.readFile "key.jwk" = .ok kbs ∧
        okEnv.newSignerFromJWK kbs = .ok sg)
    ∧ (∃ s2 sg, okEnv.signCorim s2 sg = .ok [7])
    ∧ ((Except.ok "signed-corim.cbor" : Except String String) = .ok "signed-corim.cbor" ∨
        ∃ e, (Except.ok "signed-corim.cbor" : Except String String)
          = .error ("error saving signed CoRIM to file " ++ "signed-corim.cbor" ++ ": " ++ e)) :=
  sign_write_only_after_success okEnv "corim.cbor" "key.jwk" "meta.json" none none none
    (.ok "signed-corim.cbor")
    [Event.readFile .manifest "corim.cbor", Event.decodeCBOR, Event.validCorim,
     Event.readFile .meta "meta.json", Event.decodeJSON, Event.validMeta,
     Event.readFile .key "key.jwk", Event.newSigner, Event.mkAssembler,
     Event.signCall, Event.writeFile "signed-corim.cbor" [7]]
    rfl "signed-corim.cbor" [7] (by decide)

/-- C9: the only files sign reads are the five caller-supplied inputs, each
under its own role; the only write it performs targets the resolved output
path; and at most one write is ever recorded: input files are consumed
read-only. -/
theorem sign_frame {U M Sg C : Type} (env : Env U M Sg C)
    (uf kf mf : String) (out cert inter : Option String)
    (r : Except String String) (t : List Event)
    (h : sign env uf kf mf out cert inter = (r, t)) :
    (∀ st p, Event.readFile st p ∈ t →
      (st = Stage.manifest ∧ p = uf) ∨ (st = Stage.meta ∧ p = mf)
      ∨ (st = Stage.key ∧ p = kf) ∨ (st = Stage.cert ∧ cert = some p)
      ∨ (st = Stage.intermediates ∧ inter = some p))
    ∧ (∀ p b, Event.writeFile p b ∈ t → p = resolvedOutputPath uf out)
    ∧ (∀ p b p2 b2, Event.writeFile p b ∈ t → Event.writeFile p2 b2 ∈ t →
        p = p2 ∧ b = b2) := by
  unfold sign at h
  split at h
  · rw [Prod.mk.injEq] at h
    obtain ⟨hr, ht⟩ := h
    subst hr; subst ht
    refine ⟨?_, by simp, by simp⟩
    intro st p hm
    simp at hm
    tauto
  · split at h
    · rw [Prod.mk.injEq] at h
      obtain ⟨hr, ht⟩ := h
      subst hr; subst ht
      refine ⟨?_, by simp, by simp⟩
      intro st p hm
      simp at hm
      tauto
    · split at h
      · rw [Prod.mk.injEq] at h
        obtain ⟨hr, ht⟩ := h
        subst hr; subst ht
        refine ⟨?_, by simp, by simp⟩
        intro st p hm
        simp at hm
        tauto
      · split at h
        · rw [Prod.mk.injEq] at h
          obtain ⟨hr, ht⟩ := h
          subst hr; subst ht
          refine ⟨?_, by simp, by simp⟩
          intro st p hm
          simp at hm
          tauto
        · split at h
          · rw [Prod.mk.injEq] at h
            obtain ⟨hr, ht⟩ := h
            subst hr; subst ht
            refine ⟨?_, by simp, by simp⟩
            intro st p hm
            simp at hm
            tauto
          · split at h
            · rw [Prod.mk.injEq] at h
              obtain ⟨hr, ht⟩ := h
              subst hr; subst ht
              refine ⟨?_, by simp, by simp⟩
              intro st p hm
              simp at hm
              tauto
            · split at h
              · rw [Prod.mk.injEq] at h
                obtain ⟨hr, ht⟩ := h
                subst hr; subst ht
                refine ⟨?_, by simp, by simp⟩
                intro st p hm
                simp at hm
                tauto
              · split at h
                · rw [Prod.mk.injEq] at h
                  obtain ⟨hr, ht⟩ := h
                  subst hr; subst ht
                  refine ⟨?_, by simp, by simp⟩
                  intro st p hm
                  simp at hm
                  tauto
                · obtain ⟨t2, ht, hrd, hwr, hu⟩ := signAttachCerts_spec env _ _ uf out cert inter _ r t h
                  refine ⟨?_, ?_, ?_⟩
                  · intro st p hm
                    rw [ht] at hm
                    rcases List.mem_append.1 hm with hm | hm
                    · simp at hm
                      tauto
                    · rcases hrd st p hm with hm2 | hm2 <;> tauto
                  · intro p b hm
                    rw [ht] at hm
                    rcases List.mem_append.1 hm with hm | hm
                    · simp at hm
                    · exact (hwr p b hm).1
                  · intro p b p2 b2 h1 h2
                    rw [ht] at h1 h2
                    rcases List.mem_append.1 h1 with h1 | h1
                    · simp at h1
                    · rcases List.mem_append.1 h2 with h2 | h2
                      · simp at h2
                      · exact hu p b p2 b2 h1 h2

/-- C9 witness: in the successful concrete run, the single recorded write
targets the resolved output path. -/
theorem sign_frame_witness :
    ("out.cbor" : String) = resolvedOutputPath "corim.cbor" (some "out.cbor") :=
  (sign_frame okEnv "corim.cbor" "key.jwk" "meta.json" (some "out.cbor") none none
      _ _ rfl).2.1 "out.cbor" [7] (by decide)


/-- The finishing stage depends only on the signing and write operations. -/
theorem signFinish_congr {U M Sg C : Type} (e1 e2 : Env U M Sg C)
    (uf : String) (out : Option String)
    (hsign : e1.signCorim = e2.signCorim) (hwrite : e1.writeFile = e2.writeFile) :
    ∀ (s : C) (sg : Sg) (t : List Event),
      signFinish e1 s sg uf out t = signFinish e2 s sg uf out t := by
  intro s sg t
  unfold signFinish
  rw [hsign, hwrite]

/-- The intermediates stage depends only on the content of the intermediates
path and the attach, sign and write operations. -/
theorem signAttachIntermediates_congr {U M Sg C : Type} (e1 e2 : Env U M Sg C)
    (uf : String) (out cert inter : Option String)
    (hri : ∀ p, inter = some p → e1.readFile p = e2.readFile p)
    (hadd : e1.addIntermediateCerts = e2.addIntermediateCerts)
    (hsign : e1.signCorim = e2.signCorim) (hwrite : e1.writeFile = e2.writeFile) :
    ∀ (s : C) (sg : Sg) (t : List Event),
      signAttachIntermediates e1 s sg uf out cert inter t
        = signAttachIntermediates e2 s sg uf out cert inter t := by
  intro s sg t
  have hf := signFinish_congr e1 e2 uf out hsign hwrite
  unfold signAttachIntermediates
  cases inter with
  | none => exact hf s sg t
  | some inf =>
    by_cases hinf : inf = ""
    · simp only [if_pos hinf]
      exact hf s sg t
    · simp only [if_neg hinf, hri inf rfl, hadd, hf]

/-- The certificate stage depends only on the contents of the certificate and
intermediates paths and the attach, sign and write operations. -/
theorem signAttachCerts_congr {U M Sg C : Type} (e1 e2 : Env U M Sg C)
    (uf : String) (out cert inter : Option String)
    (hrc : ∀ p, cert = some p → e1.readFile p = e2.readFile p)
    (hri : ∀ p, inter = some p → e1.readFile p = e2.readFile p)
    (haddc : e1.addSigningCert = e2.addSigningCert)
    (hadd : e1.addIntermediateCerts = e2.addIntermediateCerts)
    (hsign : e1.signCorim = e2.signCorim) (hwrite : e1.writeFile = e2.writeFile) :
    ∀ (s : C) (sg : Sg) (t : List Event),
      signAttachCerts e1 s sg uf out cert inter t
        = signAttachCerts e2 s sg uf out cert inter t := by
  intro s sg t
  have hi2 := signAttachIntermediates_congr e1 e2 uf out cert inter hri hadd hsign hwrite
  unfold signAttachCerts
  cases cert with
  | none => exact hi2 s sg t
  | some cf =>
    by_cases hcf : cf = ""
    · simp only [if_pos hcf]
      exact hi2 s sg t
    · simp only [if_neg hcf, hrc cf rfl, haddc, hi2]

/-- C8: sign is a deterministic function of the contents of its five input
files and of the (deterministic) collaborator operations: two environments
that agree on the contents of the supplied manifest, meta, key, certificate
and intermediates paths and use the same decoding, validation, signer,
attachment, signing and write operations produce identical results and
identical traces, hence byte-identical envelopes and the same output path. -/
theorem sign_deterministic {U M Sg C : Type} (e1 e2 : Env U M Sg C)
    (uf kf mf : String) (out cert inter : Option String)
    (hfs : ∀ p, p = uf ∨ p = mf ∨ p = kf ∨ cert = some p ∨ inter = some p →
      e1.readFile p = e2.readFile p)
    (h1 : e1.fromCBOR = e2.fromCBOR) (h2 : e1.corimValid = e2.corimValid)
    (h3 : e1.fromJSON = e2.fromJSON) (h4 : e1.metaValid = e2.metaValid)
    (h5 : e1.newSignerFromJWK = e2.newSignerFromJWK)
    (h6 : e1.mkSignedCorim = e2.mkSignedCorim)
    (h7 : e1.addSigningCert = e2.addSigningCert)
    (h8 : e1.addIntermediateCerts = e2.addIntermediateCerts)
    (h9 : e1.signCorim = e2.signCorim) (h10 : e1.writeFile = e2.writeFile) :
    sign e1 uf kf mf out cert inter = sign e2 uf kf mf out cert inter := by
  have hac := signAttachCerts_congr e1 e2 uf out cert inter
    (fun p hp => hfs p (Or.inr (Or.inr (Or.inr (Or.inl hp)))))
    (fun p hp => hfs p (Or.inr (Or.inr (Or.inr (Or.inr hp)))))
    h7 h8 h9 h10
  unfold sign
  simp only [hfs uf (Or.inl rfl), hfs mf (Or.inr (Or.inl rfl)),
    hfs kf (Or.inr (Or.inr (Or.inl rfl))), h1, h2, h3, h4, h5, h6, hac]

/-- C8 witness: the determinism theorem applied to two (identical) concrete
environments on concrete inputs. -/
theorem sign_deterministic_witness :
    sign okEnv "corim.cbor" "key.jwk" "meta.json" none none none
      = sign okEnv "corim.cbor" "key.jwk" "meta.json" none none none :=
  sign_deterministic okEnv okEnv "corim.cbor" "key.jwk" "meta.json" none none none
    (fun _ _ => rfl) rfl rfl rfl rfl rfl rfl rfl rfl rfl rfl


/-- The character data of an appended string is the appended data. -/
theorem string_data_append (s t : String) : (s ++ t).data = s.data ++ t.data := by
  cases s; cases t; rfl

/-- A string is mentioned by any message that ends with it. -/
theorem mentionsPath_left (pre p : String) : mentionsPath p (pre ++ p) := by
  unfold mentionsPath
  rw [string_data_append]
  exact ⟨pre.data, [], by simp⟩

/-- Being mentioned is preserved by appending further text to the message. -/
theorem mentionsPath_append (p s1 s2 : String) (h : mentionsPath p s1) :
    mentionsPath p (s1 ++ s2) := by
  obtain ⟨a, b, hab⟩ := h
  exact ⟨a, b ++ s2.data, by rw [string_data_append, ← hab]; simp⟩

/-- C6, counterexample: a validation failure produces the error
"error validating CoRIM: boom", which names none of the supplied file paths;
so not every error returned by sign carries the originating file/path
context. -/
theorem sign_error_context_counterexample :
    (sign badValidEnv "corim.cbor" "key.jwk" "meta.json" none none none).1
      = .error "error validating CoRIM: boom"
    ∧ ¬ mentionsPath "corim.cbor" "error validating CoRIM: boom"
    ∧ ¬ mentionsPath "key.jwk" "error validating CoRIM: boom"
    ∧ ¬ mentionsPath "meta.json" "error validating CoRIM: boom" :=
  ⟨rfl, by decide, by decide, by decide⟩


/-- A path placed between a prefix and two suffixes is mentioned. -/
theorem mentionsPath_wrap (pre p mid suf : String) :
    mentionsPath p (pre ++ p ++ mid ++ suf) :=
  mentionsPath_append _ _ _ (mentionsPath_append _ _ _ (mentionsPath_left pre p))

/-- C6, amended: the load, decode, key/signer-loading, certificate-file and
intermediates-file loading and persist errors of sign each carry the
originating file or path in their message; the validation, certificate
attachment and signing errors carry a stage description but (as the
counterexample shows) not the path. -/
theorem sign_error_context_amended {U M Sg C : Type} (env : Env U M Sg C)
    (uf kf mf : String) (out cert inter : Option String)
    (r : Except String String) (t : List Event)
    (h : sign env uf kf mf out cert inter = (r, t)) :
    (∀ e, env.readFile uf = .error e →
      r = .error ("error loading unsigned CoRIM from " ++ uf ++ ": " ++ e)
      ∧ mentionsPath uf ("error loading unsigned CoRIM from " ++ uf ++ ": " ++ e))
    ∧ (∀ bs e, env.readFile uf = .ok bs → env.fromCBOR bs = .error e →
      r = .error ("error decoding unsigned CoRIM from " ++ uf ++ ": " ++ e)
      ∧ mentionsPath uf ("error decoding unsigned CoRIM from " ++ uf ++ ": " ++ e))
    ∧ (∀ bs c e, env.readFile uf = .ok bs → env.fromCBOR bs = .ok c →
        env.corimValid c = .ok () → env.readFile mf = .error e →
      r = .error ("error loading CoRIM Meta from " ++ mf ++ ": " ++ e)
      ∧ mentionsPath mf ("error loading CoRIM Meta from " ++ mf ++ ": " ++ e))
    ∧ (∀ bs c mbs e, env.readFile uf = .ok bs → env.fromCBOR bs = .ok c →
        env.corimValid c = .ok () → env.readFile mf = .ok mbs →
        env.fromJSON mbs = .error e →
      r = .error ("error decoding CoRIM Meta from " ++ mf ++ ": " ++ e)
      ∧ mentionsPath mf ("error decoding CoRIM Meta from " ++ mf ++ ": " ++ e))
    ∧ (∀ bs c mbs m e, env.readFile uf = .ok bs → env.fromCBOR bs = .ok c →
        env.corimValid c = .ok () → env.readFile mf = .ok mbs →
        env.fromJSON mbs = .ok m → env.metaValid m = .ok () →
        env.readFile kf = .error e →
      r = .error ("error loading signing key from " ++ kf ++ ": " ++ e)
      ∧ mentionsPath kf ("error loading signing key from " ++ kf ++ ": " ++ e))
    ∧ (∀ bs c mbs m kbs e, env.readFile uf = .ok bs → env.fromCBOR bs = .ok c →
        env.corimValid c = .ok () → env.readFile mf = .ok mbs →
        env.fromJSON mbs = .ok m → env.metaValid m = .ok () →
        env.readFile kf = .ok kbs → env.newSignerFromJWK kbs = .error e →
      r = .error ("error loading signing key from " ++ kf ++ ": " ++ e)
      ∧ mentionsPath kf ("error loading signing key from " ++ kf ++ ": " ++ e))
    ∧ (∀ bs c mbs m kbs sg cf e, env.readFile uf = .ok bs → env.fromCBOR bs = .ok c →
        env.corimValid c = .ok () → env.readFile mf = .ok mbs →
        env.fromJSON mbs = .ok m → env.metaValid m = .ok () →
        env.readFile kf = .ok kbs → env.newSignerFromJWK kbs = .ok sg →
        cert = some cf → ¬(cf = "") → env.readFile cf = .error e →
      r = .error ("error loading signing certificate from " ++ cf ++ ": " ++ e)
      ∧ mentionsPath cf ("error loading signing certificate from " ++ cf ++ ": " ++ e))
    ∧ (∀ bs c mbs m kbs sg cf cd s2 inf e,
        env.readFile uf = .ok bs → env.fromCBOR bs = .ok c →
        env.corimValid c = .ok () → env.readFile mf = .ok mbs →
        env.fromJSON mbs = .ok m → env.metaValid m = .ok () →
        env.readFile kf = .ok kbs → env.newSignerFromJWK kbs = .ok sg →
        cert = some cf → ¬(cf = "") → env.readFile cf = .ok cd →
        env.addSigningCert (env.mkSignedCorim c m) cd = .ok s2 →
        inter = some inf → ¬(inf = "") → env.readFile inf = .error e →
      r = .error ("error loading intermediate certificates from " ++ inf ++ ": " ++ e)
      ∧ mentionsPath inf
          ("error loading intermediate certificates from " ++ inf ++ ": " ++ e))
    ∧ (∀ bs c mbs m kbs sg b e, env.readFile uf = .ok bs → env.fromCBOR bs = .ok c →
        env.corimValid c = .ok () → env.readFile mf = .ok mbs →
        env.fromJSON mbs = .ok m → env.metaValid m = .ok () →
        env.readFile kf = .ok kbs → env.newSignerFromJWK kbs = .ok sg →
        cert = none → inter = none →
        env.signCorim (env.mkSignedCorim c m) sg = .ok b →
        env.writeFile (resolvedOutputPath uf out) b = .error e →
      r = .error ("error saving signed CoRIM to file "
            ++ resolvedOutputPath uf out ++ ": " ++ e)
      ∧ mentionsPath (resolvedOutputPath uf out)
          ("error saving signed CoRIM to file "
            ++ resolvedOutputPath uf out ++ ": " ++ e)) := by
  refine ⟨?_, ?_, ?_, ?_, ?_, ?_, ?_, ?_, ?_⟩
  · intro e h1
    have hh := h
    simp only [sign, h1] at hh
    rw [Prod.mk.injEq] at hh
    exact ⟨hh.1.symm, mentionsPath_wrap _ _ _ _⟩
  · intro bs e h1 h2
    have hh := h
    simp only [sign, h1, h2] at hh
    rw [Prod.mk.injEq] at hh
    exact ⟨hh.1.symm, mentionsPath_wrap _ _ _ _⟩
  · intro bs c e h1 h2 h3 h4
    have hh := h
    simp only [sign, h1, h2, h3, h4] at hh
    rw [Prod.mk.injEq] at hh
    exact ⟨hh.1.symm, mentionsPath_wrap _ _ _ _⟩
  · intro bs c mbs e h1 h2 h3 h4 h5
    have hh := h
    simp only [sign, h1, h2, h3, h4, h5] at hh
    rw [Prod.mk.injEq] at hh
    exact ⟨hh.1.symm, mentionsPath_wrap _ _ _ _⟩
  · intro bs c mbs m e h1 h2 h3 h4 h5 h6 h7
    have hh := h
    simp only [sign, h1, h2, h3, h4, h5, h6, h7] at hh
    rw [Prod.mk.injEq] at hh
    exact ⟨hh.1.symm, mentionsPath_wrap _ _ _ _⟩
  · intro bs c mbs m kbs e h1 h2 h3 h4 h5 h6 h7 h8
    have hh := h
    simp only [sign, h1, h2, h3, h4, h5, h6, h7, h8] at hh
    rw [Prod.mk.injEq] at hh
    exact ⟨hh.1.symm, mentionsPath_wrap _ _ _ _⟩
  · intro bs c mbs m kbs sg cf e h1 h2 h3 h4 h5 h6 h7 h8 hcf hne hre
    have hh := h
    simp only [sign, h1, h2, h3, h4, h5, h6, h7, h8, hcf, signAttachCerts,
      if_neg hne, hre] at hh
    rw [Prod.mk.injEq] at hh
    exact ⟨hh.1.symm, mentionsPath_wrap _ _ _ _⟩
  · intro bs c mbs m kbs sg cf cd s2 inf e h1 h2 h3 h4 h5 h6 h7 h8 hcf hne hrc hac hin hni hre
    have hh := h
    have hx : ¬(optPresent (some cf) = false) := by simp [optPresent, hne]
    simp only [sign, h1, h2, h3, h4, h5, h6, h7, h8, hcf, hin, signAttachCerts,
      signAttachIntermediates, if_neg hne, if_neg hni, if_neg hx, hrc, hac, hre] at hh
    rw [Prod.mk.injEq] at hh
    exact ⟨hh.1.symm, mentionsPath_wrap _ _ _ _⟩
  · intro bs c mbs m kbs sg b e h1 h2 h3 h4 h5 h6 h7 h8 hcf hin hsc hwf
    have hh := h
    simp only [sign, h1, h2, h3, h4, h5, h6, h7, h8, hcf, hin, signAttachCerts,
      signAttachIntermediates, signFinish, hsc, hwf] at hh
    rw [Prod.mk.injEq] at hh
    exact ⟨hh.1.symm, mentionsPath_wrap _ _ _ _⟩

/-- C6 witness for the amended claim: a failing manifest read produces an
error naming the manifest path. -/
theorem sign_error_context_amended_witness :
    (Except.error ("error loading unsigned CoRIM from " ++ "corim.cbor" ++ ": "
        ++ "open: no such file") : Except String String)
      = .error ("error loading unsigned CoRIM from " ++ "corim.cbor" ++ ": "
        ++ "open: no such file")
    ∧ mentionsPath "corim.cbor"
        ("error loading unsigned CoRIM from " ++ "corim.cbor" ++ ": "
          ++ "open: no such file") :=
  (sign_error_context_amended badReadEnv "corim.cbor" "key.jwk" "meta.json"
      none none none
      (.error ("error loading unsigned CoRIM from " ++ "corim.cbor" ++ ": "
        ++ "open: no such file"))
      [Event.readFile .manifest "corim.cbor"] rfl).1 "open: no such file" rfl


end Cocli
